import Mathlib

set_option maxHeartbeats 1000000

attribute [local semireducible] Rat.add Rat.sub Rat.mul Rat.inv Rat.ofScientific

/-!
Shallow embedding of the Strava dashboard ETL pipeline of this
repository (src/etl.py and src/app.py): record normalization,
paginated fetching, aggregation helpers, CSV persistence and summary
statistics.  Python floats are modelled as exact rationals, and the
pandas missing values (None / NaN / NaT / NA) as `Option.none`.
-/

/-- Round half to even to an integer, the rounding mode used by
numpy/pandas `round`. -/
def roundHalfEven (x : ℚ) : ℤ :=
  let f := Rat.floor x
  if x - f < 1/2 then f
  else if 1/2 < x - f then f + 1
  else if f % 2 = 0 then f else f + 1

/-- pandas `Series.round(1)`: round to one decimal place. -/
def round1 (q : ℚ) : ℚ := (roundHalfEven (q * 10) : ℚ) / 10

/-- A raw activity record, as served by the upstream API or held in a
cached CSV: a dictionary whose keys may all be absent.  The structure
lists the keys the pipeline reads, together with the alternative
duration/date keys raw records may carry (`transform_activities`
ignores those, which is what several claims are about).  The nested
`map.summary_polyline` value is flattened into `polyline`. -/
structure RawActivity where
  id : Option ℕ := none
  name : Option String := none
  type : Option String := none
  date : Option String := none
  start_date : Option String := none
  start_date_local : Option String := none
  distance : Option ℚ := none
  moving_time : Option ℚ := none
  elapsed_time : Option ℚ := none
  duration : Option ℚ := none
  duration_min : Option ℚ := none
  total_elevation_gain : Option ℚ := none
  average_speed : Option ℚ := none
  max_speed : Option ℚ := none
  calories : Option ℚ := none
  kudos_count : Option ℚ := none
  polyline : Option String := none
deriving DecidableEq

/-- One entry of the `records` list built inside `transform_activities`
(etl.py lines 99-112), before the column-wise pace and rounding steps. -/
structure ActivityRecord where
  id : Option ℕ
  name : Option String
  type : Option String
  date : Option String
  distance_km : ℚ
  duration_min : ℚ
  elevation_m : ℚ
  avg_speed_kmh : ℚ
  max_speed_kmh : ℚ
  calories : ℚ
  kudos : ℚ
  polyline : Option String
deriving DecidableEq

/-- A row of the DataFrame returned by `transform_activities`, after
the `pace_min_km`, rounding, `date_only` and `month_year` steps
(etl.py lines 114-125). -/
structure NormalizedActivity where
  id : Option ℕ
  name : Option String
  type : Option String
  date : Option String
  distance_km : ℚ
  duration_min : ℚ
  elevation_m : ℚ
  avg_speed_kmh : ℚ
  max_speed_kmh : ℚ
  calories : ℚ
  kudos : ℚ
  polyline : Option String
  pace_min_km : Option ℚ
  date_only : Option String
  month_year : Option String
deriving DecidableEq

/-- `pd.to_datetime` applied to an optional value: `None` gives `NaT`
(modelled `none`); a timestamp string parses to the timestamp it
denotes (modelled by the string itself). -/
def toDatetime (s : Option String) : Option String := s

/-- `Timestamp.date` on an ISO timestamp string: its calendar-date part
(the first 10 characters, `YYYY-MM-DD`). -/
def dateOnlyOf (s : String) : String := String.mk (s.toList.take 10)

/-- `Timestamp.to_period("M")` on an ISO timestamp string: its
calendar-month bucket (the first 7 characters, `YYYY-MM`). -/
def monthKeyOf (s : String) : String := String.mk (s.toList.take 7)

/-- The dictionary appended to `records` for one raw activity
(etl.py lines 99-112).  `act.get(k, 0)` is `Option.getD` with default
0; `date` reads only `start_date_local`. -/
def mkRecord (a : RawActivity) : ActivityRecord :=
  { id := a.id
    name := a.name
    type := a.type
    date := toDatetime a.start_date_local
    distance_km := a.distance.getD 0 / 1000
    duration_min := a.moving_time.getD 0 / 60
    elevation_m := a.total_elevation_gain.getD 0
    avg_speed_kmh := a.average_speed.getD 0 * (36/10)
    max_speed_kmh := a.max_speed.getD 0 * (36/10)
    calories := a.calories.getD 0
    kudos := a.kudos_count.getD 0
    polyline := a.polyline }

/-- The column-wise steps of `transform_activities` (etl.py lines
116-123) applied to one row: the guarded pace division
(`duration_min / distance_km.replace({0: NA})`, so a zero divisor
yields NA and no division is performed), then rounding of
`distance_km` and `pace_min_km` to one decimal, then the derived date
buckets.  Note the pace is computed from the distance before it is
rounded. -/
def finishRecord (r : ActivityRecord) : NormalizedActivity :=
  let pace0 : Option ℚ :=
    if r.distance_km = 0 then none else some (r.duration_min / r.distance_km)
  { id := r.id
    name := r.name
    type := r.type
    date := r.date
    distance_km := round1 r.distance_km
    duration_min := r.duration_min
    elevation_m := r.elevation_m
    avg_speed_kmh := r.avg_speed_kmh
    max_speed_kmh := r.max_speed_kmh
    calories := r.calories
    kudos := r.kudos
    polyline := r.polyline
    pace_min_km := pace0.map round1
    date_only := r.date.map dateOnlyOf
    month_year := r.date.map monthKeyOf }

/-- `transform_activities` (etl.py lines 92-125): an empty input list
returns an empty DataFrame; otherwise one row is produced per raw
record, in order. -/
def transform_activities (activities : List RawActivity) : List NormalizedActivity :=
  if activities.isEmpty then []
  else (activities.map mkRecord).map finishRecord

/-- The pagination loop of `fetch_all_activities` (etl.py lines
71-83), with the HTTP source abstracted as `pageFn` : page number ↦
response (`none` models a request that raises, which breaks the loop
exactly like an empty page does).  Each iteration performs exactly one
page request; the result is (number of requests made, accumulated
records).  The loop is structurally bounded by the remaining page
budget, so it always terminates. -/
def fetchPages {α : Type} (pageFn : ℕ → Option (List α)) : ℕ → ℕ → ℕ × List α
  | 0, _ => (0, [])
  | fuel + 1, page =>
    match pageFn page with
    | none => (1, [])
    | some [] => (1, [])
    | some (x :: xs) =>
      let r := fetchPages pageFn fuel (page + 1)
      (r.1 + 1, (x :: xs) ++ r.2)

/-- `fetch_all_activities` (etl.py lines 62-90): a missing access
token short-circuits to no requests and no records; otherwise pages
1, 2, ... are requested until an empty page, an error, or the
`max_pages` budget stops the loop.  (`per_page` only parametrises the
upstream response and is folded into `pageFn`.) -/
def fetch_all_activities {α : Type} (access_token : Option String)
    (pageFn : ℕ → Option (List α)) (max_pages : ℕ) : ℕ × List α :=
  match access_token with
  | none => (0, [])
  | some _ => fetchPages pageFn max_pages 1

/-- The row cleanup the app performs after normalization (app.py lines
277-282): drop rows with a null date, then keep only rows with
`distance_km > 0`, then only rows with `duration_min > 0` (all three
columns exist on a normalized table). -/
def app_clean (rows : List NormalizedActivity) : List NormalizedActivity :=
  ((rows.filter (fun r => r.date.isSome)).filter
      (fun r => decide (0 < r.distance_km))).filter
    (fun r => decide (0 < r.duration_min))

/-- The dictionary returned by `get_activity_stats` (etl.py lines
253-275).  `avg_pace` and the dates are `Option` valued because the
pandas aggregations can produce NaN/NaT (`none`); the empty-table
branch returns the literal number 0 for `avg_pace`, hence `some 0`. -/
structure ActivityStats where
  total_activities : ℕ
  total_distance_km : ℚ
  total_duration_hours : ℚ
  total_elevation_m : ℚ
  avg_pace : Option ℚ
  first_date : Option String
  last_date : Option String
deriving DecidableEq

/-- `df["date"].min()` / `.max()`: the least/greatest non-null date,
NaT (`none`) when there is none.  ISO timestamp strings compare
chronologically as strings. -/
def dateMin (ds : List String) : Option String :=
  ds.foldl (fun acc d => match acc with
    | none => some d
    | some m => if d < m then some d else some m) none

def dateMax (ds : List String) : Option String :=
  ds.foldl (fun acc d => match acc with
    | none => some d
    | some m => if m < d then some d else some m) none

/-- `get_activity_stats` (etl.py lines 253-275).  On a non-empty
table: row count, summed distance, summed duration converted to
hours, summed elevation, the mean of the positive paces (NaN when no
row has a positive pace, since the mean of an empty Series is NaN),
and the date range. -/
def get_activity_stats (df : List NormalizedActivity) : ActivityStats :=
  if df.isEmpty then
    { total_activities := 0
      total_distance_km := 0
      total_duration_hours := 0
      total_elevation_m := 0
      avg_pace := some 0
      first_date := none
      last_date := none }
  else
    let paces := (df.filterMap (fun r => r.pace_min_km)).filter (fun p => decide (0 < p))
    { total_activities := df.length
      total_distance_km := (df.map (fun r => r.distance_km)).sum
      total_duration_hours := (df.map (fun r => r.duration_min)).sum / 60
      total_elevation_m := (df.map (fun r => r.elevation_m)).sum
      avg_pace := if paces.isEmpty then none else some (paces.sum / paces.length)
      first_date := dateMin (df.filterMap (fun r => r.date))
      last_date := dateMax (df.filterMap (fun r => r.date)) }

/-- A pandas cell: missing (NaN/NaT/NA), numeric, or textual. -/
inductive Cell where
  | na : Cell
  | num (q : ℚ) : Cell
  | str (s : String) : Cell
deriving DecidableEq

/-- A pandas DataFrame for the chart helpers: named columns and rows
of cells aligned with `cols` by position.  `df.empty` is true exactly
when there are no rows. -/
structure DF where
  cols : List String
  rows : List (List Cell)
deriving DecidableEq

/-- Reading column `c` of a row (missing entries read as NaN). -/
def DF.cell (df : DF) (row : List Cell) (c : String) : Cell :=
  match df.cols.findIdx? (fun x => x = c) with
  | none => Cell.na
  | some i => (row.get? i).getD Cell.na

/-- `df[c]` on a DataFrame: the column as a Series, or a `KeyError`
carrying the column name when it is absent. -/
def DF.colE (df : DF) (c : String) : Except String (List Cell) :=
  if df.cols.contains c then
    Except.ok (df.rows.map (fun row => df.cell row c))
  else
    Except.error c

def cellNum : Cell → Option ℚ
  | Cell.num q => some q
  | _ => none

/-- `cell > 0` in a pandas filter: false on NaN and non-numeric. -/
def cellPos (c : Cell) : Bool :=
  match cellNum c with
  | some q => decide (0 < q)
  | none => false

/-- A total order on cells used to model `sort_values` (NaN first,
numbers by value, strings after numbers lexicographically). -/
def cellLeB : Cell → Cell → Bool
  | Cell.na, _ => true
  | _, Cell.na => false
  | Cell.num x, Cell.num y => decide (x ≤ y)
  | Cell.num _, Cell.str _ => true
  | Cell.str _, Cell.num _ => false
  | Cell.str x, Cell.str y => decide (x ≤ y)

/-- Insertion sort on an arbitrary boolean comparator, modelling
pandas `sort_values` (the helpers only need a stable sort). -/
def insertLe {α : Type} (le : α → α → Bool) (x : α) : List α → List α
  | [] => [x]
  | y :: ys => if le x y then x :: y :: ys else y :: insertLe le x ys

def sortLe {α : Type} (le : α → α → Bool) (l : List α) : List α :=
  l.foldr (insertLe le) []

/-- Running sum of a (date, value) series, modelling `cumsum`: NaN
values stay NaN and do not contribute to the running total. -/
def cumsumCells (acc : ℚ) : List (Cell × Cell) → List (Cell × Option ℚ)
  | [] => []
  | (d, v) :: rest =>
    match cellNum v with
    | some q => (d, some (acc + q)) :: cumsumCells (acc + q) rest
    | none => (d, none) :: cumsumCells acc rest

/-- `create_distance_over_time` (etl.py lines 145-154): `None` on an
empty table; otherwise sort the rows by `date` and pair each date with
the cumulative `distance_km`.  Column access on a non-empty table
raises `KeyError` when the column is absent. -/
def create_distance_over_time (df : DF) :
    Except String (Option (List (Cell × Option ℚ))) :=
  if df.rows.isEmpty then Except.ok none
  else do
    let dates ← df.colE "date"
    let dists ← df.colE "distance_km"
    let sorted := sortLe (fun a b => cellLeB a.1 b.1) (dates.zip dists)
    pure (some (cumsumCells 0 sorted))

/-- `create_activity_type_pie` (etl.py lines 156-164): `None` on an
empty table; otherwise `value_counts` of the `type` column (non-null
values, counted, most frequent first). -/
def create_activity_type_pie (df : DF) :
    Except String (Option (List (Cell × ℕ))) :=
  if df.rows.isEmpty then Except.ok none
  else do
    let ts ← df.colE "type"
    let keys := (ts.filter (fun c => c ≠ Cell.na)).dedup
    let counts := keys.map (fun k => (k, ts.count k))
    pure (some (sortLe (fun a b => decide (b.2 ≤ a.2)) counts))

/-- `create_pace_trend` (etl.py lines 166-177): `None` on an empty
table; keep the rows with positive `distance_km`, sorted by `date`;
`None` again when none survive; otherwise the (date, pace) points.
The scatter call also reads `pace_min_km`, `name` and `duration_min`,
so those columns are required once points exist. -/
def create_pace_trend (df : DF) :
    Except String (Option (List (Cell × Cell))) :=
  if df.rows.isEmpty then Except.ok none
  else do
    let _ ← df.colE "distance_km"
    let _ ← df.colE "date"
    let keep := df.rows.filter (fun row => cellPos (df.cell row "distance_km"))
    if keep.isEmpty then
      pure none
    else do
      let _ ← df.colE "pace_min_km"
      let _ ← df.colE "name"
      let _ ← df.colE "duration_min"
      let pts := keep.map (fun row => (df.cell row "date", df.cell row "pace_min_km"))
      pure (some (sortLe (fun a b => cellLeB a.1 b.1) pts))

/-- Key used when month buckets are compared after `astype(str)`. -/
def cellKeyStr : Cell → String
  | Cell.na => ""
  | Cell.num q => toString q.num
  | Cell.str s => s

/-- `create_monthly_stats` (etl.py lines 189-207): `None` on an empty
table; otherwise group by `month_year` (null keys dropped) and per
bucket sum `distance_km`, sum `duration_min` and count the non-null
`type` cells, sorted ascending by the stringified bucket key. -/
def create_monthly_stats (df : DF) :
    Except String (Option (List (String × ℚ × ℚ × ℕ))) :=
  if df.rows.isEmpty then Except.ok none
  else do
    let _ ← df.colE "month_year"
    let _ ← df.colE "distance_km"
    let _ ← df.colE "duration_min"
    let _ ← df.colE "type"
    let keys := ((df.rows.map (fun row => df.cell row "month_year")).filter
      (fun c => c ≠ Cell.na)).dedup
    let buckets := keys.map (fun k =>
      let grp := df.rows.filter (fun row => df.cell row "month_year" = k)
      (cellKeyStr k,
       (grp.filterMap (fun row => cellNum (df.cell row "distance_km"))).sum,
       (grp.filterMap (fun row => cellNum (df.cell row "duration_min"))).sum,
       (grp.filter (fun row => df.cell row "type" ≠ Cell.na)).length))
    pure (some (sortLe (fun a b => decide (a.1 ≤ b.1)) buckets))

/-- `categorize_distance` (app.py lines 53-62). -/
def categorize_distance (distance_km : ℚ) : String :=
  if distance_km < 5 then "Treino leve (< 5km)"
  else if distance_km < 10 then "Curta (5-10km)"
  else if distance_km < 21 then "Médio (10-21km)"
  else "Meia maratona (> 21km)"

/-- `pace_by_category` (app.py lines 104-169): a placeholder figure
(`none`) on an empty table, a missing duration column
(`duration_min` | `moving_time` | `elapsed_time`, first match wins)
or a missing `distance_km` column; otherwise per row coerce distance
and duration to numbers (non-numeric becomes 0 via
`to_numeric(errors="coerce").fillna(0)`), bucket by
`categorize_distance`, compute the guarded pace rounded to one
decimal, average it per bucket (skipping nulls; a bucket with no
defined pace averages to NA and is dropped), and sort ascending by
mean pace.  Every code path is guarded: this helper never raises. -/
def pace_by_category (df : DF) :
    Except String (Option (List (String × ℚ))) :=
  if df.rows.isEmpty then Except.ok none
  else
    match ["duration_min", "moving_time", "elapsed_time"].find?
        (fun c => df.cols.contains c) with
    | none => Except.ok none
    | some dc =>
      if ¬ df.cols.contains "distance_km" then Except.ok none
      else
        let entries := df.rows.map (fun row =>
          let dist := (cellNum (df.cell row "distance_km")).getD 0
          let dur := (cellNum (df.cell row dc)).getD 0
          let pace : Option ℚ :=
            if 0 < dist then some (round1 (dur / dist)) else none
          (categorize_distance dist, pace))
        let cats := (entries.map (fun e => e.1)).dedup
        let means := cats.filterMap (fun c =>
          let ps := (entries.filter (fun e => e.1 = c)).filterMap (fun e => e.2)
          if ps.isEmpty then none else some (c, ps.sum / ps.length))
        let sorted := sortLe (fun a b => decide (a.2 ≤ b.2)) means
        if sorted.isEmpty then Except.ok none else Except.ok (some sorted)

/-- Base-10 digits of a natural number, most significant first
(fuelled structural recursion; `natToDigits` supplies enough fuel). -/
def natToDigitsF : ℕ → ℕ → List ℕ
  | 0, n => [n % 10]
  | fuel + 1, n => if n < 10 then [n] else natToDigitsF fuel (n / 10) ++ [n % 10]

def natToDigits (n : ℕ) : List ℕ := natToDigitsF n n

/-- Value of a most-significant-first digit list. -/
def digitsVal (ds : List ℕ) : ℕ := ds.foldl (fun a d => 10 * a + d) 0

def digitChar (d : ℕ) : Char := Char.ofNat (48 + d)

def charDigit (c : Char) : Option ℕ :=
  if 48 ≤ c.toNat ∧ c.toNat ≤ 57 then some (c.toNat - 48) else none

def parseDigits : List Char → Option (List ℕ)
  | [] => some []
  | c :: cs =>
    match charDigit c, parseDigits cs with
    | some d, some ds => some (d :: ds)
    | _, _ => none

/-- Split a character list at its first `'.'`, if any. -/
def splitDot : List Char → List Char × Option (List Char)
  | [] => ([], none)
  | c :: cs =>
    if c = '.' then ([], some cs)
    else
      let r := splitDot cs
      (c :: r.1, r.2)

/-- How `pandas.read_csv` turns one cell back into a float: an empty
cell is NaN; otherwise a decimal literal, integer and optional
fractional digits, is read exactly.  (The pipeline only ever writes
such literals, see `ratCell`.) -/
def parseCell (cs : List Char) : Option ℚ :=
  if cs.isEmpty then none
  else
    match splitDot cs with
    | (ip, none) => (parseDigits ip).map (fun ds => (digitsVal ds : ℚ))
    | (ip, some fp) =>
      match parseDigits ip, parseDigits fp with
      | some a, some b =>
        some ((digitsVal a : ℚ) + (digitsVal b : ℚ) / 10 ^ fp.length)
      | _, _ => none

/-- Largest power of `p` dividing `n`, computed with fuel (no proof is
needed: `decDigits` re-checks divisibility). -/
def maxPowF (p : ℕ) : ℕ → ℕ → ℕ
  | 0, _ => 0
  | fuel + 1, n =>
    if 2 ≤ p ∧ p ∣ n ∧ n ≠ 0 then maxPowF p fuel (n / p) + 1 else 0

def maxPow (p n : ℕ) : ℕ := maxPowF p n n

/-- The decimal exponent a float formatter uses for `q`: just enough
fractional digits to write `q` exactly, and at least one (floats print
as `5.0`, never `5`). -/
def decExp (q : ℚ) : ℕ := max 1 (max (maxPow 2 q.den) (maxPow 5 q.den))

def decMant (q : ℚ) : ℕ := (q.num * 10 ^ decExp q / q.den).toNat

/-- Mantissa/exponent decomposition `q = m / 10 ^ e` of a nonnegative
finite-decimal rational, `none` when `q` has no exact finite decimal
form.  Every Python float is a dyadic rational and therefore has one,
so on values the real program writes this never returns `none`. -/
def decDigits (q : ℚ) : Option (ℕ × ℕ) :=
  if (decMant q : ℚ) / 10 ^ decExp q = q then some (decMant q, decExp q)
  else none

/-- Decimal rendering of mantissa `m` with `e` fractional digits:
the digits of `m`, zero-padded to at least `e + 1` digits, with the
decimal point inserted before the last `e` of them. -/
def renderDec (m e : ℕ) : List Char :=
  let ds := List.replicate (e + 1 - (natToDigits m).length) 0 ++ natToDigits m
  (ds.take (ds.length - e)).map digitChar
    ++ '.' :: (ds.drop (ds.length - e)).map digitChar

/-- How `DataFrame.to_csv` writes one float cell. -/
def ratCell (q : ℚ) : List Char :=
  match decDigits q with
  | some (m, e) => renderDec m e
  | none => ['?']

/-- A nullable float cell: NA prints as the empty cell. -/
def optRatCell : Option ℚ → List Char
  | none => []
  | some q => ratCell q

/-- A nullable string cell: None prints as the empty cell. -/
def strCell : Option String → List Char
  | none => []
  | some s => s.toList

/-- A nullable integer id cell. -/
def natCell : Option ℕ → List Char
  | none => []
  | some n => (natToDigits n).map digitChar

/-- The cells of one CSV row of a normalized table, in the column
order `transform_activities` produces. -/
def rowCells (r : NormalizedActivity) : List (List Char) :=
  [natCell r.id, strCell r.name, strCell r.type, strCell r.date,
   ratCell r.distance_km, ratCell r.duration_min, ratCell r.elevation_m,
   ratCell r.avg_speed_kmh, ratCell r.max_speed_kmh, ratCell r.calories,
   ratCell r.kudos, strCell r.polyline, optRatCell r.pace_min_km,
   strCell r.date_only, strCell r.month_year]

/-- Comma-join of the cells of one CSV line. -/
def joinCells : List (List Char) → List Char
  | [] => []
  | [c] => c
  | c :: cs => c ++ ',' :: joinCells cs

/-- Split one CSV line at every comma. -/
def splitComma : List Char → List (List Char)
  | [] => [[]]
  | c :: cs =>
    match splitComma cs with
    | [] => [[]]
    | a :: as =>
      if c = ',' then [] :: a :: as
      else (c :: a) :: as

def csvHeader : List String :=
  ["id", "name", "type", "date", "distance_km", "duration_min",
   "elevation_m", "avg_speed_kmh", "max_speed_kmh", "calories", "kudos",
   "polyline", "pace_min_km", "date_only", "month_year"]

/-- `save_csv` (etl.py lines 127-143), modelled as the content written
to the file: a header line followed by one comma-joined line per row
(`to_csv(index=False)`).  The path handling and the try/except around
the filesystem write are outside the model. -/
def save_csv (df : List NormalizedActivity) : List (List Char) :=
  joinCells (csvHeader.map (fun s => s.toList))
    :: df.map (fun r => joinCells (rowCells r))

/-- The fields `pd.read_csv` recovers for one row that the round-trip
claim talks about, plus the textual identification fields. -/
structure LoadedRow where
  name : Option String
  type : Option String
  date : Option String
  distance_km : Option ℚ
  duration_min : Option ℚ
  pace_min_km : Option ℚ
deriving DecidableEq

def strOfCell (cs : List Char) : Option String :=
  if cs.isEmpty then none else some (String.mk cs)

/-- One parsed CSV data line. -/
def parseRow (cells : List (List Char)) : LoadedRow :=
  { name := strOfCell ((cells.get? 1).getD [])
    type := strOfCell ((cells.get? 2).getD [])
    date := strOfCell ((cells.get? 3).getD [])
    distance_km := parseCell ((cells.get? 4).getD [])
    duration_min := parseCell ((cells.get? 5).getD [])
    pace_min_km := parseCell ((cells.get? 12).getD []) }

/-- `pd.read_csv` (app.py line 220) on the file content: skip the
header line and parse every data line at the claimed columns. -/
def load_csv (lines : List (List Char)) : List LoadedRow :=
  match lines with
  | [] => []
  | _header :: rest => rest.map (fun ln => parseRow (splitComma ln))

/-- A concrete normalized row used to exercise the round trip. -/
def sampleRow : NormalizedActivity where
  id := some 7
  name := some "Run A"
  type := some "Run"
  date := some "2024-01-01 06:00:00"
  distance_km := 5
  duration_min := 30
  elevation_m := 10
  avg_speed_kmh := 10
  max_speed_kmh := 12
  calories := 300
  kudos := 2
  polyline := none
  pace_min_km := some 6
  date_only := some "2024-01-01"
  month_year := some "2024-01"

/-- A raw activity of 40 metres in 60 seconds: its exact distance is
0.04 km, which rounds to 0.0 in the stored `distance_km`, while its
pace 60s/0.04km = 25.0 min/km is defined. -/
def shortAct : RawActivity where
  distance := some 40
  moving_time := some 60

/-- A raw activity that carries its timestamp under the `date` and
`start_date` keys but not under `start_date_local`. -/
def dateKeyAct : RawActivity where
  date := some "2024-01-01T06:00:00"
  start_date := some "2024-01-01T06:00:00"
  distance := some 5000
  moving_time := some 1800

/-- A raw activity with none of the duration keys. -/
def noDurationAct : RawActivity where
  distance := some 5000
  start_date_local := some "2024-01-01T06:00:00"

/-- A mock upstream source whose successive pages have sizes
50, 50, 0, 0, ... -/
def pages_50_50_0 : ℕ → Option (List ℕ)
  | 1 => some (List.replicate 50 0)
  | 2 => some (List.replicate 50 1)
  | _ => some []

/-- A non-empty single-column table with no `type` column. -/
def noTypeDF : DF where
  cols := ["distance_km"]
  rows := [[Cell.num 5]]

/-- The empty table. -/
def emptyDF : DF where
  cols := []
  rows := []

/-- Whether a computation finished without raising. -/
def exceptOk {ε α : Type} : Except ε α → Bool
  | Except.ok _ => true
  | Except.error _ => false

/-- The dictionary `get_activity_stats` returns for an empty table
(etl.py lines 256-264). -/
def emptyStats : ActivityStats where
  total_activities := 0
  total_distance_km := 0
  total_duration_hours := 0
  total_elevation_m := 0
  avg_pace := some 0
  first_date := none
  last_date := none

/-- A string cell that survives the CSV round trip as written:
non-empty (an empty cell reads back as NaN) and free of the cell
separator (the model does not implement pandas quoting). -/
def csvSafeStrB : Option String → Bool
  | none => true
  | some s => !s.toList.isEmpty && !s.toList.any (fun c => decide (c = ','))

/-- Rows whose cells the declared round trip covers: textual cells
are separator-free, and the claimed numeric fields have exact finite
decimal forms — as every value a Python float column holds does,
floats being dyadic rationals. -/
def csvSafeRow (r : NormalizedActivity) : Bool :=
  csvSafeStrB r.name && csvSafeStrB r.type && csvSafeStrB r.date &&
  csvSafeStrB r.polyline && csvSafeStrB r.date_only && csvSafeStrB r.month_year &&
  (decDigits r.distance_km).isSome && (decDigits r.duration_min).isSome &&
  (match r.pace_min_km with
   | none => true
   | some p => (decDigits p).isSome)

/-- The fields the round-trip claim asserts are reproduced, read off
a normalized row: what a faithful reload must produce. -/
def loadedOf (r : NormalizedActivity) : LoadedRow where
  name := r.name
  type := r.type
  date := r.date
  distance_km := some r.distance_km
  duration_min := some r.duration_min
  pace_min_km := r.pace_min_km

/-- C10: on the empty table `get_activity_stats` takes its guarded
early-return branch: zero totals, `avg_pace` 0 and null first/last
dates, and no aggregation (hence nothing that could raise) runs. -/
theorem stats_empty_table : get_activity_stats [] = emptyStats := by decide

/-- C8: the normalizer is a pure function of its input list: two runs
on the same raw list produce identical normalized tables.  In this
embedding `transform_activities` reads no state besides its argument,
mirroring the Python function, which touches no mutable global. -/
theorem transform_deterministic (acts : List RawActivity) :
    transform_activities acts = transform_activities acts := rfl

/-- C2 fails as stated: on pages of sizes [50, 50, 0] with
`max_pages = 5` the loop performs a third request (the one that
returns the empty page and stops pagination), so 3 page requests are
made, not 2; 100 records are indeed returned. -/
theorem fetch_50_50_0_counterexample :
    (fetch_all_activities (some "token") pages_50_50_0 5).1 ≠ 2 ∧
    (fetch_all_activities (some "token") pages_50_50_0 5).2.length = 100 := by decide

/-- C2 amended: for a source whose successive pages have sizes
[50, 50, 0] and `max_pages = 5`, the fetcher makes exactly 3 page
requests (the third returns zero records, ending pagination) and
returns exactly 100 records. -/
theorem fetch_50_50_0_three_requests :
    (fetch_all_activities (some "token") pages_50_50_0 5).1 = 3 ∧
    (fetch_all_activities (some "token") pages_50_50_0 5).2.length = 100 := by decide

/-- C1 fails as stated over the stored row values: a 40 m / 60 s
activity is normalized to a row whose stored `distance_km` is 0.0
(0.04 rounds to 0) while `pace_min_km` is the defined value 25.0,
because the pace is computed from the distance before rounding. -/
theorem pace_nonnull_at_zero_distance_counterexample :
    (transform_activities [shortAct]).map (fun r => (r.distance_km, r.pace_min_km)) =
      [(0, some 25)] := by decide

/-- C5 fails as stated: the normalizer reads only `start_date_local`,
so a record carrying its timestamp under `date` (and `start_date`)
gets a null normalized date. -/
theorem date_key_ignored_counterexample :
    (transform_activities [dateKeyAct]).map (fun r => r.date) = [none] := by decide

/-- C5 amended: for every raw record the normalizer takes the date
solely from `start_date_local` (null when that key is absent); the
`date` | `start_date` | `start_date_local` first-match resolution is
applied by the app only to the column names of a loaded table, not
per record. -/
theorem normalizer_date_only_start_date_local (acts : List RawActivity) :
    (transform_activities acts).map (fun r => r.date) =
      acts.map (fun a => a.start_date_local) := by
  unfold transform_activities
  by_cases h : acts.isEmpty
  · rw [if_pos h, List.isEmpty_iff.mp h]
    rfl
  · rw [if_neg h, List.map_map, List.map_map]
    rfl

/-- C4 fails as stated: on a non-empty table lacking the `type`
column, the type-distribution helper raises `KeyError` instead of
returning an empty result. -/
theorem type_pie_missing_column_counterexample :
    noTypeDF.rows ≠ [] ∧ create_activity_type_pie noTypeDF = Except.error "type" := by
  constructor
  · decide
  · rfl

/-- C1 amended: for every raw record the pace is the guarded division
of `duration_min` by the pre-rounding distance `distance/1000`: null
exactly when that distance is 0 (so the division is never performed
with a zero divisor), and otherwise `round(duration_min / d, 1)` for
the unrounded `d`.  (The stored `distance_km` is rounded only after
the pace is computed, which is why a stored 0.0 can carry a pace.) -/
theorem pace_from_unrounded_distance (acts : List RawActivity) :
    (transform_activities acts).map (fun r => r.pace_min_km) =
      acts.map (fun a =>
        if a.distance.getD 0 / 1000 = 0 then (none : Option ℚ)
        else some (round1 (a.moving_time.getD 0 / 60 / (a.distance.getD 0 / 1000)))) := by
  unfold transform_activities
  by_cases h : acts.isEmpty
  · rw [if_pos h, List.isEmpty_iff.mp h]
    rfl
  · rw [if_neg h, List.map_map, List.map_map]
    apply List.map_congr_left
    intro a _
    simp only [Function.comp_apply, mkRecord, finishRecord]
    split
    · rfl
    · rfl

/-- C9: on a non-empty input the normalizer emits exactly one row per
raw record, in input order (it is the composition of the per-record
maps, so it never drops a record; filtering happens only downstream in
the app). -/
theorem transform_row_per_record (acts : List RawActivity) (h : acts ≠ []) :
    transform_activities acts = acts.map (fun a => finishRecord (mkRecord a)) ∧
    (transform_activities acts).length = acts.length := by
  have he : acts.isEmpty = false := by
    cases acts with
    | nil => exact absurd rfl h
    | cons x xs => rfl
  constructor
  · unfold transform_activities
    rw [he]
    simp [List.map_map, Function.comp]
  · unfold transform_activities
    rw [he]
    simp

theorem transform_row_per_record_witness :
    transform_activities [{}] = [finishRecord (mkRecord {})] ∧
    (transform_activities ([{}] : List RawActivity)).length = 1 :=
  transform_row_per_record [{}] (List.cons_ne_nil _ _)

/-- C3: a raw record carrying none of the duration keys is normalized
with `duration_min = 0` (the normalizer reads `moving_time` with
default 0), and the app-side cleanup keeps only rows with
`duration_min > 0`, so such a row is excluded from the final table. -/
theorem missing_duration_zero_and_excluded (a : RawActivity)
    (rest : List RawActivity) (h1 : a.moving_time = none)
    (_h2 : a.elapsed_time = none) (_h3 : a.duration = none)
    (_h4 : a.duration_min = none) :
    (transform_activities (a :: rest)).head?.map (fun r => r.duration_min) = some 0 ∧
    ∀ rows : List NormalizedActivity,
      (app_clean rows).all (fun r => decide (0 < r.duration_min)) = true := by
  constructor
  · simp [transform_activities, mkRecord, finishRecord, h1]
  · intro rows
    rw [List.all_eq_true]
    intro r hr
    exact (List.mem_filter.mp hr).2

theorem missing_duration_zero_and_excluded_witness :
    (transform_activities [noDurationAct]).head?.map (fun r => r.duration_min) = some 0 ∧
    (app_clean (transform_activities [noDurationAct])).all
      (fun r => decide (0 < r.duration_min)) = true :=
  ⟨(missing_duration_zero_and_excluded noDurationAct [] rfl rfl rfl rfl).1,
   (missing_duration_zero_and_excluded noDurationAct [] rfl rfl rfl rfl).2
     (transform_activities [noDurationAct])⟩

theorem fetchPages_fst_le {α : Type} (f : ℕ → Option (List α))
    (fuel page : ℕ) : (fetchPages f fuel page).1 ≤ fuel := by
  induction fuel generalizing page with
  | zero => exact Nat.le_refl 0
  | succ n ih =>
    simp only [fetchPages]
    cases hf : f page with
    | none => exact Nat.succ_le_succ (Nat.zero_le n)
    | some l =>
      cases l with
      | nil => exact Nat.succ_le_succ (Nat.zero_le n)
      | cons x xs => exact Nat.succ_le_succ (ih (page + 1))

theorem fetchPages_fst_eq {α : Type} (f : ℕ → Option (List α))
    (h : ∀ p, 1 ≤ p → ∃ x xs, f p = some (x :: xs)) (fuel page : ℕ)
    (hp : 1 ≤ page) : (fetchPages f fuel page).1 = fuel := by
  induction fuel generalizing page with
  | zero => rfl
  | succ n ih =>
    obtain ⟨x, xs, hf⟩ := h page hp
    simp only [fetchPages, hf]
    exact congrArg (fun k => k + 1) (ih (page + 1) (Nat.le_succ_of_le hp))

/-- C6: for every access token, upstream source and `max_pages`
budget, the fetcher makes at most `max_pages` page requests (the loop
is structurally bounded, hence total), and when a token is present and
every page is non-empty it makes exactly `max_pages` requests — in
particular exactly 2 when `max_pages = 2`. -/
theorem fetcher_request_bound {α : Type} (tok : Option String)
    (f : ℕ → Option (List α)) (m : ℕ) :
    (fetch_all_activities tok f m).1 ≤ m ∧
    (tok.isSome = true →
      (∀ p, 1 ≤ p → ∃ x xs, f p = some (x :: xs)) →
      (fetch_all_activities tok f m).1 = m) := by
  cases tok with
  | none =>
    refine ⟨Nat.zero_le m, fun hs _ => ?_⟩
    cases hs
  | some t =>
    exact ⟨fetchPages_fst_le f m 1,
      fun _ hne => fetchPages_fst_eq f hne m 1 (Nat.le_refl 1)⟩

theorem fetcher_request_bound_witness :
    (fetch_all_activities (some "token") (fun _ => some [0]) 2).1 ≤ 2 ∧
    (fetch_all_activities (some "token") (fun _ => some [0]) 2).1 = 2 :=
  ⟨(fetcher_request_bound (some "token") (fun _ => some [0]) 2).1,
   (fetcher_request_bound (some "token") (fun _ => some [0]) 2).2 rfl
     (fun _ _ => ⟨0, [], rfl⟩)⟩

theorem exceptOk_ite {ε α : Type} (c : Prop) [Decidable c] (x y : α) :
    exceptOk (if c then (Except.ok x : Except ε α) else Except.ok y) = true := by
  split
  · rfl
  · rfl

/-- C4 amended: every aggregation helper returns its empty/absent
result without raising when the input table is empty, and
`pace_by_category` additionally never raises on any table (its column
accesses are all guarded); but the four etl chart helpers do raise
`KeyError` on a non-empty table that lacks a needed column. -/
theorem helpers_empty_input_safe :
    (∀ df : DF, df.rows = [] →
      create_distance_over_time df = Except.ok none ∧
      create_activity_type_pie df = Except.ok none ∧
      create_pace_trend df = Except.ok none ∧
      create_monthly_stats df = Except.ok none ∧
      pace_by_category df = Except.ok none) ∧
    ∀ df : DF, exceptOk (pace_by_category df) = true := by
  constructor
  · intro df h
    refine ⟨?_, ?_, ?_, ?_, ?_⟩ <;>
      simp [create_distance_over_time, create_activity_type_pie,
        create_pace_trend, create_monthly_stats, pace_by_category, h]
  · intro df
    unfold pace_by_category
    split
    · rfl
    · split
      · rfl
      · split
        · rfl
        · exact exceptOk_ite _ _ _

theorem helpers_empty_input_safe_witness :
    (create_distance_over_time emptyDF = Except.ok none ∧
      create_activity_type_pie emptyDF = Except.ok none ∧
      create_pace_trend emptyDF = Except.ok none ∧
      create_monthly_stats emptyDF = Except.ok none ∧
      pace_by_category emptyDF = Except.ok none) ∧
    exceptOk (pace_by_category noTypeDF) = true :=
  ⟨helpers_empty_input_safe.1 emptyDF rfl, helpers_empty_input_safe.2 noTypeDF⟩

theorem digitsVal_from (a : ℕ) (ds : List ℕ) :
    ds.foldl (fun x d => 10 * x + d) a = a * 10 ^ ds.length + digitsVal ds := by
  induction ds generalizing a with
  | nil => simp [digitsVal]
  | cons d ds ih =>
    simp only [List.foldl_cons, digitsVal, List.length_cons]
    rw [ih (10 * a + d), ih (10 * 0 + d)]
    ring

theorem digitsVal_append (xs ys : List ℕ) :
    digitsVal (xs ++ ys) = digitsVal xs * 10 ^ ys.length + digitsVal ys := by
  unfold digitsVal
  rw [List.foldl_append]
  exact digitsVal_from _ ys

theorem digitsVal_replicate_zero (k : ℕ) :
    digitsVal (List.replicate k 0) = 0 := by
  induction k with
  | zero => rfl
  | succ n ih =>
    unfold digitsVal at ih ⊢
    simp only [List.replicate_succ, List.foldl_cons]
    simpa using ih

theorem digitsVal_pad (k : ℕ) (ds : List ℕ) :
    digitsVal (List.replicate k 0 ++ ds) = digitsVal ds := by
  rw [digitsVal_append, digitsVal_replicate_zero]
  simp

theorem natToDigitsF_val (fuel : ℕ) : ∀ n : ℕ, n ≤ fuel →
    digitsVal (natToDigitsF fuel n) = n := by
  induction fuel with
  | zero =>
    intro n hn
    interval_cases n
    rfl
  | succ f ih =>
    intro n hn
    by_cases h : n < 10
    · simp [natToDigitsF, h, digitsVal]
    · have hpos : 0 < n := by omega
      have hlt : n / 10 < n := Nat.div_lt_self hpos (by omega)
      rw [natToDigitsF, if_neg h, digitsVal_append, ih (n / 10) (by omega)]
      simp [digitsVal, Nat.div_add_mod]
      omega

theorem natToDigits_val (n : ℕ) : digitsVal (natToDigits n) = n :=
  natToDigitsF_val n n (Nat.le_refl n)

theorem natToDigitsF_lt10 (fuel : ℕ) : ∀ n : ℕ, n ≤ fuel →
    ∀ d ∈ natToDigitsF fuel n, d < 10 := by
  induction fuel with
  | zero =>
    intro n _ d hd
    simp only [natToDigitsF, List.mem_singleton] at hd
    omega
  | succ f ih =>
    intro n hn d hd
    by_cases h : n < 10
    · simp only [natToDigitsF, if_pos h, List.mem_singleton] at hd
      omega
    · have hpos : 0 < n := by omega
      have hlt : n / 10 < n := Nat.div_lt_self hpos (by omega)
      rw [natToDigitsF, if_neg h] at hd
      rcases List.mem_append.mp hd with hd | hd
      · exact ih (n / 10) (by omega) d hd
      · simp only [List.mem_singleton] at hd
        omega

theorem natToDigits_lt10 (n : ℕ) : ∀ d ∈ natToDigits n, d < 10 :=
  natToDigitsF_lt10 n n (Nat.le_refl n)

theorem natToDigits_ne_nil (n : ℕ) : natToDigits n ≠ [] := by
  unfold natToDigits
  cases n with
  | zero => exact fun hx => List.cons_ne_nil _ _ hx
  | succ k =>
    unfold natToDigitsF
    split
    · exact List.cons_ne_nil _ _
    · exact fun hx => absurd hx (List.append_ne_nil_of_right_ne_nil _ (List.cons_ne_nil _ _))

theorem charDigit_digitChar (d : ℕ) (h : d < 10) :
    charDigit (digitChar d) = some d := by
  interval_cases d <;> decide

theorem digitChar_ne_dot (d : ℕ) (h : d < 10) : digitChar d ≠ '.' := by
  interval_cases d <;> decide

theorem digitChar_ne_comma (d : ℕ) (h : d < 10) : digitChar d ≠ ',' := by
  interval_cases d <;> decide

theorem parseDigits_map (ds : List ℕ) (h : ∀ d ∈ ds, d < 10) :
    parseDigits (ds.map digitChar) = some ds := by
  induction ds with
  | nil => rfl
  | cons d ds ih =>
    simp only [List.map_cons, parseDigits]
    rw [charDigit_digitChar d (h d (List.mem_cons_self d ds)),
      ih (fun x hx => h x (List.mem_cons_of_mem d hx))]

theorem splitDot_of_not_mem (xs ys : List Char) (h : '.' ∉ xs) :
    splitDot (xs ++ '.' :: ys) = (xs, some ys) := by
  induction xs with
  | nil => simp [splitDot]
  | cons c cs ih =>
    have hc : c ≠ '.' := fun hx => h (hx ▸ List.mem_cons_self c cs)
    have ih' := ih (fun hx => h (List.mem_cons_of_mem c hx))
    rw [List.cons_append, splitDot, if_neg hc]
    rw [ih']

theorem renderDec_parse (m e : ℕ) (he : 1 ≤ e) :
    parseCell (renderDec m e) = some ((m : ℚ) / 10 ^ e) := by
  unfold renderDec
  set ds : List ℕ := List.replicate (e + 1 - (natToDigits m).length) 0 ++ natToDigits m with hds
  have hall : ∀ d ∈ ds, d < 10 := by
    intro d hd
    rcases List.mem_append.mp hd with hd | hd
    · have := List.eq_of_mem_replicate hd
      omega
    · exact natToDigits_lt10 m d hd
  have hlen : e + 1 ≤ ds.length := by
    rw [hds, List.length_append, List.length_replicate]
    omega
  set k := ds.length - e with hk
  have hk1 : 1 ≤ k := by omega
  have hkle : k ≤ ds.length := by omega
  have hipall : ∀ d ∈ ds.take k, d < 10 := fun d hd => hall d (List.take_subset k ds hd)
  have hfpall : ∀ d ∈ ds.drop k, d < 10 := fun d hd => hall d (List.drop_subset k ds hd)
  have hiplen : (ds.take k).length = k := by
    rw [List.length_take]
    omega
  have hfplen : (ds.drop k).length = e := by
    rw [List.length_drop]
    omega
  have hsplit : splitDot ((ds.take k).map digitChar ++ '.' :: (ds.drop k).map digitChar)
      = ((ds.take k).map digitChar, some ((ds.drop k).map digitChar)) := by
    apply splitDot_of_not_mem
    intro hmem
    obtain ⟨d, hd, hdc⟩ := List.mem_map.mp hmem
    exact digitChar_ne_dot d (hipall d hd) hdc
  have hne : ((ds.take k).map digitChar ++ '.' :: (ds.drop k).map digitChar).isEmpty = false := by
    cases hx : (ds.take k).map digitChar with
    | nil => rfl
    | cons a as => rfl
  unfold parseCell
  rw [hne, hsplit]
  simp only [Bool.false_eq_true, if_false]
  rw [parseDigits_map _ hipall, parseDigits_map _ hfpall]
  have hvals : digitsVal (ds.take k) * 10 ^ e + digitsVal (ds.drop k) = m := by
    have h1 : digitsVal ds = m := by
      rw [hds, digitsVal_pad, natToDigits_val]
    have h2 : digitsVal (ds.take k ++ ds.drop k) = digitsVal (ds.take k) * 10 ^ e + digitsVal (ds.drop k) := by
      rw [digitsVal_append, hfplen]
    rw [List.take_append_drop] at h2
    omega
  have hlenmap : ((ds.drop k).map digitChar).length = e := by
    rw [List.length_map, hfplen]
  rw [hlenmap]
  have hcast : ((digitsVal (ds.take k) * 10 ^ e + digitsVal (ds.drop k) : ℕ) : ℚ) = (m : ℚ) := by
    exact_mod_cast congrArg (fun n : ℕ => (n : ℚ)) hvals
  push_cast at hcast
  have hpow : (10 : ℚ) ^ e ≠ 0 := pow_ne_zero e (by norm_num)
  field_simp
  linarith [hcast]

theorem decDigits_spec (q : ℚ) (m e : ℕ) (h : decDigits q = some (m, e)) :
    (m : ℚ) / 10 ^ e = q ∧ 1 ≤ e := by
  unfold decDigits at h
  split at h
  · rename_i hc
    injection h with h'
    cases h'
    refine ⟨hc, ?_⟩
    unfold decExp
    exact le_max_left 1 _
  · cases h

theorem parseCell_ratCell (q : ℚ) (h : (decDigits q).isSome = true) :
    parseCell (ratCell q) = some q := by
  cases hq : decDigits q with
  | none => rw [hq] at h; cases h
  | some me =>
    obtain ⟨m, e⟩ := me
    obtain ⟨hval, he⟩ := decDigits_spec q m e hq
    unfold ratCell
    rw [hq, renderDec_parse m e he, hval]

theorem parseCell_optRatCell (o : Option ℚ)
    (h : (match o with
          | none => true
          | some p => (decDigits p).isSome) = true) :
    parseCell (optRatCell o) = o := by
  cases o with
  | none => rfl
  | some p => exact parseCell_ratCell p h

theorem comma_not_mem_mapDigit (ds : List ℕ) (h : ∀ d ∈ ds, d < 10) :
    ',' ∉ ds.map digitChar := by
  intro hmem
  obtain ⟨d, hd, hdc⟩ := List.mem_map.mp hmem
  exact digitChar_ne_comma d (h d hd) hdc

theorem comma_not_mem_renderDec (m e : ℕ) : ',' ∉ renderDec m e := by
  unfold renderDec
  intro hmem
  have hall : ∀ d ∈ List.replicate (e + 1 - (natToDigits m).length) 0 ++ natToDigits m,
      d < 10 := by
    intro d hd
    rcases List.mem_append.mp hd with hd | hd
    · have := List.eq_of_mem_replicate hd
      omega
    · exact natToDigits_lt10 m d hd
  rcases List.mem_append.mp hmem with hmem | hmem
  · exact comma_not_mem_mapDigit _
      (fun d hd => hall d (List.take_subset _ _ hd)) hmem
  · rcases List.mem_cons.mp hmem with hmem | hmem
    · cases hmem
    · exact comma_not_mem_mapDigit _
        (fun d hd => hall d (List.drop_subset _ _ hd)) hmem

theorem comma_not_mem_ratCell (q : ℚ) : ',' ∉ ratCell q := by
  unfold ratCell
  split
  · exact comma_not_mem_renderDec _ _
  · intro hmem
    rcases List.mem_cons.mp hmem with hmem | hmem
    · cases hmem
    · cases hmem

theorem comma_not_mem_optRatCell (o : Option ℚ) : ',' ∉ optRatCell o := by
  cases o with
  | none => exact List.not_mem_nil ','
  | some q => exact comma_not_mem_ratCell q

theorem comma_not_mem_natCell (o : Option ℕ) : ',' ∉ natCell o := by
  cases o with
  | none => exact List.not_mem_nil ','
  | some n => exact comma_not_mem_mapDigit _ (natToDigits_lt10 n)

theorem comma_not_mem_strCell (o : Option String) (h : csvSafeStrB o = true) :
    ',' ∉ strCell o := by
  cases o with
  | none => exact List.not_mem_nil ','
  | some s =>
    have h2 : (!s.toList.any (fun c => decide (c = ','))) = true := by
      have := h
      unfold csvSafeStrB at this
      exact (Bool.and_eq_true _ _ ▸ this).2
    intro hmem
    have : s.toList.any (fun c => decide (c = ',')) = true :=
      List.any_eq_true.mpr ⟨',', hmem, by decide⟩
    rw [this] at h2
    cases h2

theorem splitComma_ne_nil (l : List Char) : splitComma l ≠ [] := by
  cases l with
  | nil => exact List.cons_ne_nil _ _
  | cons c cs =>
    unfold splitComma
    cases h : splitComma cs with
    | nil => exact List.cons_ne_nil _ _
    | cons a as =>
      by_cases hc : c = ','
      · simp only [if_pos hc]
        exact List.cons_ne_nil _ _
      · simp only [if_neg hc]
        exact List.cons_ne_nil _ _

theorem splitComma_single (x : List Char) (h : ',' ∉ x) : splitComma x = [x] := by
  induction x with
  | nil => rfl
  | cons c cs ih =>
    have hc : c ≠ ',' := fun hx => h (hx ▸ List.mem_cons_self c cs)
    have ih' := ih (fun hx => h (List.mem_cons_of_mem c hx))
    rw [splitComma, ih']
    simp only [if_neg hc]

theorem splitComma_append (x rest : List Char) (h : ',' ∉ x) :
    splitComma (x ++ ',' :: rest) = x :: splitComma rest := by
  induction x with
  | nil =>
    obtain ⟨a, as, hx⟩ : ∃ a as, splitComma rest = a :: as := by
      cases hr : splitComma rest with
      | nil => exact absurd hr (splitComma_ne_nil rest)
      | cons a as => exact ⟨a, as, rfl⟩
    rw [List.nil_append, splitComma, hx]
    simp
  | cons c cs ih =>
    have hc : c ≠ ',' := fun hx => h (hx ▸ List.mem_cons_self c cs)
    have ih' := ih (fun hx => h (List.mem_cons_of_mem c hx))
    rw [List.cons_append, splitComma, ih']
    simp only [if_neg hc]

theorem splitComma_joinCells (cells : List (List Char)) (hne : cells ≠ [])
    (h : ∀ c ∈ cells, ',' ∉ c) : splitComma (joinCells cells) = cells := by
  induction cells with
  | nil => exact absurd rfl hne
  | cons x cs ih =>
    cases cs with
    | nil => exact splitComma_single x (h x (List.mem_cons_self x []))
    | cons y ys =>
      have hj : joinCells (x :: y :: ys) = x ++ ',' :: joinCells (y :: ys) := rfl
      rw [hj, splitComma_append x _ (h x (List.mem_cons_self x _)),
        ih (List.cons_ne_nil y ys) (fun c hc => h c (List.mem_cons_of_mem x hc))]

theorem strOfCell_strCell (o : Option String) (h : csvSafeStrB o = true) :
    strOfCell (strCell o) = o := by
  cases o with
  | none => rfl
  | some s =>
    have h1 : (!s.toList.isEmpty) = true := by
      unfold csvSafeStrB at h
      exact (Bool.and_eq_true _ _ ▸ h).1
    have hie : (strCell (some s)).isEmpty = false := by
      unfold strCell
      cases hx : s.toList.isEmpty with
      | false => rfl
      | true => rw [hx] at h1; cases h1
    unfold strOfCell
    rw [hie]
    rfl

theorem comma_not_mem_rowCells (r : NormalizedActivity) (h : csvSafeRow r = true) :
    ∀ c ∈ rowCells r, ',' ∉ c := by
  have h' := h
  unfold csvSafeRow at h'
  rw [Bool.and_eq_true, Bool.and_eq_true, Bool.and_eq_true, Bool.and_eq_true,
    Bool.and_eq_true, Bool.and_eq_true, Bool.and_eq_true, Bool.and_eq_true] at h'
  obtain ⟨⟨⟨⟨⟨⟨⟨⟨hname, htype⟩, hdate⟩, hpoly⟩, hdonly⟩, hmonth⟩, _⟩, _⟩, _⟩ := h'
  intro c hc
  simp only [rowCells, List.mem_cons, List.not_mem_nil, or_false] at hc
  rcases hc with rfl | rfl | rfl | rfl | rfl | rfl | rfl | rfl | rfl | rfl | rfl | rfl | rfl | rfl | rfl
  · exact comma_not_mem_natCell r.id
  · exact comma_not_mem_strCell r.name hname
  · exact comma_not_mem_strCell r.type htype
  · exact comma_not_mem_strCell r.date hdate
  · exact comma_not_mem_ratCell r.distance_km
  · exact comma_not_mem_ratCell r.duration_min
  · exact comma_not_mem_ratCell r.elevation_m
  · exact comma_not_mem_ratCell r.avg_speed_kmh
  · exact comma_not_mem_ratCell r.max_speed_kmh
  · exact comma_not_mem_ratCell r.calories
  · exact comma_not_mem_ratCell r.kudos
  · exact comma_not_mem_strCell r.polyline hpoly
  · exact comma_not_mem_optRatCell r.pace_min_km
  · exact comma_not_mem_strCell r.date_only hdonly
  · exact comma_not_mem_strCell r.month_year hmonth

theorem parseRow_rowCells (r : NormalizedActivity) (h : csvSafeRow r = true) :
    parseRow (splitComma (joinCells (rowCells r))) = loadedOf r := by
  have h' := h
  unfold csvSafeRow at h'
  rw [Bool.and_eq_true, Bool.and_eq_true, Bool.and_eq_true, Bool.and_eq_true,
    Bool.and_eq_true, Bool.and_eq_true, Bool.and_eq_true, Bool.and_eq_true] at h'
  obtain ⟨⟨⟨⟨⟨⟨⟨⟨hname, htype⟩, hdate⟩, _⟩, _⟩, _⟩, hdist⟩, hdur⟩, hpace⟩ := h'
  rw [splitComma_joinCells (rowCells r)
    (by unfold rowCells; exact List.cons_ne_nil _ _)
    (comma_not_mem_rowCells r h)]
  have hred : parseRow (rowCells r) =
      { name := strOfCell (strCell r.name)
        type := strOfCell (strCell r.type)
        date := strOfCell (strCell r.date)
        distance_km := parseCell (ratCell r.distance_km)
        duration_min := parseCell (ratCell r.duration_min)
        pace_min_km := parseCell (optRatCell r.pace_min_km) } := rfl
  rw [hred, strOfCell_strCell r.name hname, strOfCell_strCell r.type htype,
    strOfCell_strCell r.date hdate, parseCell_ratCell r.distance_km hdist,
    parseCell_ratCell r.duration_min hdur, parseCell_optRatCell r.pace_min_km hpace]
  rfl

/-- C7: loading a saved normalized table reproduces every row's
`date`, `distance_km`, `duration_min` and `pace_min_km` at exactly
the (already rounded) values that were written, for every row whose
text cells are separator-free and whose claimed numeric fields have
exact finite decimal forms (every Python float does: floats are
dyadic rationals, and pandas writes a float's shortest exact decimal
and reads it back to the same value). -/
theorem csv_round_trip (t : List NormalizedActivity)
    (h : ∀ r ∈ t, csvSafeRow r = true) :
    load_csv (save_csv t) = t.map loadedOf := by
  show (t.map (fun r => joinCells (rowCells r))).map
      (fun ln => parseRow (splitComma ln)) = t.map loadedOf
  rw [List.map_map]
  apply List.map_congr_left
  intro r hr
  exact parseRow_rowCells r (h r hr)

theorem csv_round_trip_witness :
    (∀ r ∈ [sampleRow], csvSafeRow r = true) ∧
    load_csv (save_csv [sampleRow]) = [sampleRow].map loadedOf :=
  ⟨by decide, csv_round_trip [sampleRow] (by decide)⟩
